import Mathlib

/-!
Shallow embedding of the influxdb metadata / write-path coordinator
(`server.go`): the topology data model, the apply engine handlers, the
command surface helpers (`Sync`, `WriteSeries`, `ExecuteQuery`) and the
message processor, together with theorems settling the specification
claims about them.

Conventions of the embedding:
* Go machine integers (`uint64`, `uint32`, `uint8`) are modelled as `Nat`;
  none of the claims exercise wrap-around behaviour.
* `time.Time` / `time.Duration` are modelled as `Int` nanosecond counts.
* Go maps keyed by strings or ids are modelled as functions into `Option`,
  except the data-node map, which the shard-group handler iterates and is
  therefore kept as a list of entries.
* The metastore is external durable storage; its observable behaviour
  inside an apply handler is the outcome of the single `mustUpdate`
  transaction (success, or an error) plus its monotonic id allocators.
  Each handler therefore takes the transaction outcome `mo` as an
  explicit parameter, and the allocator counters live in the state.
  A failed transaction aborts: the allocators are not advanced.
* Pointer mutation in Go (e.g. renaming a `RetentionPolicy` in place)
  becomes functional record update plus re-insertion into the owning map.
-/

namespace Influx

/-- Error kinds surfaced by the server (the `Err*` values of the package);
`other` stands for dynamically built errors (`fmt.Errorf`) and injected
storage failures. -/
inductive GoError where
  | DataNodeURLRequired
  | DataNodeExists
  | DataNodeNotFound
  | DatabaseExists
  | DatabaseNotFound
  | RetentionPolicyNameRequired
  | RetentionPolicyExists
  | RetentionPolicyNotFound
  | DefaultRetentionPolicyNotFound
  | ShardNotFound
  | MeasurementNotFound
  | SeriesNotFound
  | UsernameRequired
  | UserExists
  | UserNotFound
  | FieldOverflow
  | NotExecuted
  | other (msg : String)
  deriving DecidableEq, Repr

/-- Values carried in a point's `values` map (`map[string]interface{}` in Go;
currently only 64-bit floats, represented here by their raw bit pattern). -/
inductive FieldValue where
  | number (bits : Nat)
  deriving DecidableEq, Repr

/-- A named scalar column within a measurement (`Field`). -/
structure Field where
  ID : Nat
  Name : String
  deriving DecidableEq, Repr

/-- A unique (measurement, tag-set) pair (`Series`). -/
structure Series where
  ID : Nat
  Tags : List (String × String)
  deriving DecidableEq, Repr

/-- A measurement: its field catalog and (modelled from the spec: the
series index of `database.go` is not under `src/`) the series that belong
to it. -/
structure Measurement where
  Name : String
  fields : List Field
  series : List Series
  deriving DecidableEq, Repr

/-- A storage unit replicated across data nodes (`Shard`); the local point
store is the external storage engine and is not part of the state. -/
structure Shard where
  ID : Nat
  DataNodeIDs : List Nat
  deriving DecidableEq, Repr

/-- Zero value of `Shard`, as produced by `newShard()`. -/
def newShard : Shard := { ID := 0, DataNodeIDs := [] }

/-- A set of shards covering one time window of a policy (`ShardGroup`). -/
structure ShardGroup where
  ID : Nat
  StartTime : Int
  EndTime : Int
  Shards : List Shard
  deriving DecidableEq, Repr

/-- Zero value of `ShardGroup`, as produced by `newShardGroup()`. -/
def newShardGroup : ShardGroup := { ID := 0, StartTime := 0, EndTime := 0, Shards := [] }

/-- Modelled from the spec: membership test of `database.go`'s
`Shard.HasDataNodeID` — a shard lives on exactly the nodes listed. -/
def Shard.HasDataNodeID (sh : Shard) (id : Nat) : Bool :=
  sh.DataNodeIDs.contains id

/-- Modelled from the spec: `database.go`'s group containment — a shard
group covers the contiguous time window `[StartTime, EndTime)`. -/
def ShardGroup.Contains (g : ShardGroup) (t : Int) : Bool :=
  decide (g.StartTime ≤ t) && decide (t < g.EndTime)

/-- Modelled from the spec: `database.go`'s `ShardGroup.ShardBySeriesID` —
`shard = group.shards[seriesID mod |group.shards|]` (deterministic, stable
per series).  `none` when the group has no shards (Go would panic). -/
def ShardGroup.ShardBySeriesID (g : ShardGroup) (seriesID : Nat) : Option Shard :=
  g.Shards.get? (seriesID % g.Shards.length)

/-- A retention policy (`RetentionPolicy`). -/
structure RetentionPolicy where
  Name : String
  Duration : Int
  ReplicaN : Nat
  shardGroups : List ShardGroup
  deriving DecidableEq, Repr

/-- Modelled from the spec: `database.go`'s
`RetentionPolicy.shardGroupByTimestamp` — the first group of the policy
whose window contains the timestamp, if any. -/
def RetentionPolicy.shardGroupByTimestamp (rp : RetentionPolicy) (t : Int) : Option ShardGroup :=
  rp.shardGroups.find? (fun g => g.Contains t)

/-- Canonicalize a tag set by sorting on keys, as the spec requires for
series fingerprinting. -/
def canonicalTags (tags : List (String × String)) : List (String × String) :=
  List.insertionSort (fun a b => a.1 ≤ b.1) tags

/-- A database: retention policies, default policy name, measurements.
The `names` list and planner-facing indexes are not needed by any claim. -/
structure Database where
  name : String
  policies : String → Option RetentionPolicy
  defaultRetentionPolicy : String
  measurements : String → Option Measurement

/-- Zero value of `database`, as produced by `newDatabase()`. -/
def newDatabase : Database :=
  { name := "", policies := fun _ => none, defaultRetentionPolicy := "",
    measurements := fun _ => none }

/-- Insert or replace in a string-keyed Go map. -/
def mapUpdate {α : Type} (m : String → Option α) (k : String) (v : α) : String → Option α :=
  fun x => if x = k then some v else m x

/-- Delete from a string-keyed Go map. -/
def mapDelete {α : Type} (m : String → Option α) (k : String) : String → Option α :=
  fun x => if x = k then none else m x

/-- Modelled from the spec: `database.go`'s `MeasurementAndSeries` — look
up the measurement and the series identified by (measurement name,
tag-set), with tag sets canonicalized for comparison. -/
def Database.MeasurementAndSeries (db : Database) (name : String)
    (tags : List (String × String)) : Option (Measurement × Series) :=
  match db.measurements name with
  | none => none
  | some m =>
    match m.series.find? (fun sr => canonicalTags sr.Tags == canonicalTags tags) with
    | none => none
    | some sr => some (m, sr)

/-- Modelled from the spec: `database.go`'s `addSeriesToIndex` — insert a
freshly created series into the in-memory index, creating the measurement
if it is not yet known. -/
def Database.addSeriesToIndex (db : Database) (name : String) (sr : Series) : Database :=
  match db.measurements name with
  | none =>
    { db with measurements :=
        mapUpdate db.measurements name { Name := name, fields := [], series := [sr] } }
  | some m =>
    { db with measurements :=
        mapUpdate db.measurements name { m with series := m.series ++ [sr] } }

/-- Modelled from the spec: `Measurement.mapValues` — map every string key
in `values` to a known field ID on the measurement; `none` as soon as any
key is unknown (the write must then go down the non-raw path). -/
def Measurement.mapValues (m : Measurement) :
    List (String × FieldValue) → Option (List (Nat × FieldValue))
  | [] => some []
  | (k, v) :: rest =>
    match m.fields.find? (fun f => f.Name == k) with
    | none => none
    | some f =>
      match m.mapValues rest with
      | none => none
      | some l => some ((f.ID, v) :: l)

/-- A data node in the cluster (`DataNode`); the URL is kept as its string
form (`url.URL` round-trips through `String()` in all comparisons). -/
structure DataNode where
  ID : Nat
  URL : String
  deriving DecidableEq, Repr

/-- Default node used for total indexing. -/
def zeroDataNode : DataNode := { ID := 0, URL := "" }

/-- The sort of `dataNodes` (`sort.Sort(dataNodes(a))` with
`Less i j ↔ a[i].ID < a[j].ID`): ascending by node ID. -/
def sortDataNodes (l : List DataNode) : List DataNode :=
  List.insertionSort (fun a b => a.ID ≤ b.ID) l

/-- A user account (`User`); the bcrypt hash is kept abstract. -/
structure User where
  Name : String
  Hash : String
  Admin : Bool
  deriving DecidableEq, Repr

/-- Modelled from the spec: bcrypt hashing (`HashPassword`, external
crypto library), represented abstractly as an injective tagging of the
password; the claims never inspect hashes. -/
def HashPassword (password : String) : String :=
  "bcrypt$" ++ password

/-- The metastore's monotonic id allocators (`nextDataNodeID`,
`nextShardGroupID`, `nextShardID`, and the series-id sequence used by
`createSeries`); each holds the last id handed out. -/
structure Metastore where
  dataNodeID : Nat
  shardGroupID : Nat
  shardID : Nat
  seriesID : Nat
  deriving DecidableEq, Repr

/-- In-memory server state (`Server`), restricted to the fields the apply
engine and command surface mutate: applied-index high-water mark, per-index
error map, metastore allocators, and the topology maps. -/
structure ServerState where
  id : Nat
  index : Nat
  errors : Nat → Option GoError
  meta : Metastore
  dataNodes : List DataNode
  databases : String → Option Database
  shards : Nat → Option Shard
  users : String → Option User

/-- Command payload of `createDataNode` (0x00). -/
structure CreateDataNodeCommand where
  URL : String
  deriving DecidableEq, Repr

/-- Command payload of `deleteDataNode` (0x01). -/
structure DeleteDataNodeCommand where
  ID : Nat
  deriving DecidableEq, Repr

/-- Command payload of `createDatabase` (0x10). -/
structure CreateDatabaseCommand where
  Name : String
  deriving DecidableEq, Repr

/-- Command payload of `deleteDatabase` (0x11). -/
structure DeleteDatabaseCommand where
  Name : String
  deriving DecidableEq, Repr

/-- Command payload of `createRetentionPolicy` (0x20). -/
structure CreateRetentionPolicyCommand where
  Database : String
  Name : String
  Duration : Int
  ReplicaN : Nat
  deriving DecidableEq, Repr

/-- Command payload of `updateRetentionPolicy` (0x21). -/
structure UpdateRetentionPolicyCommand where
  Database : String
  Name : String
  NewName : String
  deriving DecidableEq, Repr

/-- Command payload of `deleteRetentionPolicy` (0x22). -/
structure DeleteRetentionPolicyCommand where
  Database : String
  Name : String
  deriving DecidableEq, Repr

/-- Command payload of `setDefaultRetentionPolicy` (0x23). -/
structure SetDefaultRetentionPolicyCommand where
  Database : String
  Name : String
  deriving DecidableEq, Repr

/-- Command payload of `createUser` (0x30). -/
structure CreateUserCommand where
  Username : String
  Password : String
  Admin : Bool
  deriving DecidableEq, Repr

/-- Command payload of `updateUser` (0x31). -/
structure UpdateUserCommand where
  Username : String
  Password : String
  deriving DecidableEq, Repr

/-- Command payload of `deleteUser` (0x32). -/
structure DeleteUserCommand where
  Username : String
  deriving DecidableEq, Repr

/-- Command payload of `createShardGroupIfNotExists` (0x40). -/
structure CreateShardGroupIfNotExistsCommand where
  Database : String
  Policy : String
  Timestamp : Int
  deriving DecidableEq, Repr

/-- Command payload of `createSeriesIfNotExists` (0x50). -/
structure CreateSeriesIfNotExistsCommand where
  Database : String
  Name : String
  Tags : List (String × String)
  deriving DecidableEq, Repr

/-- Command payload of the non-raw `writeSeries` message (0x81). -/
structure WriteSeriesCommandData where
  Database : String
  Measurement : String
  SeriesID : Nat
  Timestamp : Int
  Values : List (String × FieldValue)
  deriving DecidableEq, Repr

/-- Decoded payload of the raw `writeRawSeries` message (0x80): the 12-byte
header fields plus the opaque value stream handed to the shard store. -/
structure WriteRawSeriesData where
  SeriesID : Nat
  Timestamp : Int
  deriving DecidableEq, Repr

/-- The decoded payload of a broker message, one constructor per message
type code handled by `processor`; `unknown` stands for any other type code,
which the dispatch switch ignores. -/
inductive Payload where
  | createDataNode (c : CreateDataNodeCommand)
  | deleteDataNode (c : DeleteDataNodeCommand)
  | createDatabase (c : CreateDatabaseCommand)
  | deleteDatabase (c : DeleteDatabaseCommand)
  | createRetentionPolicy (c : CreateRetentionPolicyCommand)
  | updateRetentionPolicy (c : UpdateRetentionPolicyCommand)
  | deleteRetentionPolicy (c : DeleteRetentionPolicyCommand)
  | setDefaultRetentionPolicy (c : SetDefaultRetentionPolicyCommand)
  | createUser (c : CreateUserCommand)
  | updateUser (c : UpdateUserCommand)
  | deleteUser (c : DeleteUserCommand)
  | createShardGroupIfNotExists (c : CreateShardGroupIfNotExistsCommand)
  | createSeriesIfNotExists (c : CreateSeriesIfNotExistsCommand)
  | writeSeries (c : WriteSeriesCommandData)
  | writeRawSeries (c : WriteRawSeriesData)
  | unknown (typeCode : Nat)
  deriving DecidableEq, Repr

/-- A broker message as delivered on the consumer channel: log index,
topic, decoded payload. -/
structure Message where
  Index : Nat
  TopicID : Nat
  payload : Payload
  deriving DecidableEq, Repr

/-- Outcome of the single metastore `mustUpdate` transaction an apply
handler runs: `none` on success, `some e` when the transaction fails. -/
abbrev MetaOutcome := Option GoError

/-- `applyCreateDataNode`: validate the URL, reject duplicate URLs,
allocate an id and persist inside the transaction, then add the node to
the in-memory map.  Exactly as in the source, the insertion is performed
and the transaction's error returned whether or not it succeeded; on an
aborted transaction the node keeps its zero id. -/
def applyCreateDataNode (mo : MetaOutcome) (s : ServerState)
    (c : CreateDataNodeCommand) : Option GoError × ServerState :=
  if c.URL = "" then (some .DataNodeURLRequired, s)
  else if s.dataNodes.any (fun n => n.URL == c.URL) then (some .DataNodeExists, s)
  else
    match mo with
    | some e =>
      (some e, { s with dataNodes := s.dataNodes ++ [{ ID := 0, URL := c.URL }] })
    | none =>
      let id := s.meta.dataNodeID + 1
      (none, { s with meta := { s.meta with dataNodeID := id },
                      dataNodes := s.dataNodes ++ [{ ID := id, URL := c.URL }] })

/-- `applyDeleteDataNode`: 404 when absent; the deletion from the map is
performed and the transaction error returned regardless of its outcome. -/
def applyDeleteDataNode (mo : MetaOutcome) (s : ServerState)
    (c : DeleteDataNodeCommand) : Option GoError × ServerState :=
  if s.dataNodes.any (fun n => n.ID == c.ID) then
    (mo, { s with dataNodes := s.dataNodes.filter (fun n => ¬ n.ID == c.ID) })
  else (some .DataNodeNotFound, s)

/-- `applyCreateDatabase`: reject an existing name, persist, then insert
into the database map.  Exactly as in the source, the insertion is
performed and the transaction's error returned whether or not the
transaction succeeded. -/
def applyCreateDatabase (mo : MetaOutcome) (s : ServerState)
    (c : CreateDatabaseCommand) : Option GoError × ServerState :=
  match s.databases c.Name with
  | some _ => (some .DatabaseExists, s)
  | none =>
    (mo, { s with databases := mapUpdate s.databases c.Name { newDatabase with name := c.Name } })

/-- `applyDeleteDatabase`: 404 when absent; deletion performed and the
transaction error returned regardless of its outcome. -/
def applyDeleteDatabase (mo : MetaOutcome) (s : ServerState)
    (c : DeleteDatabaseCommand) : Option GoError × ServerState :=
  match s.databases c.Name with
  | none => (some .DatabaseNotFound, s)
  | some _ => (mo, { s with databases := mapDelete s.databases c.Name })

/-- `applyCreateRetentionPolicy`: validations, insert the policy, persist
(the source discards the transaction's error and returns nil). -/
def applyCreateRetentionPolicy (_mo : MetaOutcome) (s : ServerState)
    (c : CreateRetentionPolicyCommand) : Option GoError × ServerState :=
  match s.databases c.Database with
  | none => (some .DatabaseNotFound, s)
  | some db =>
    if c.Name = "" then (some .RetentionPolicyNameRequired, s)
    else
      match db.policies c.Name with
      | some _ => (some .RetentionPolicyExists, s)
      | none =>
        let rp : RetentionPolicy :=
          { Name := c.Name, Duration := c.Duration, ReplicaN := c.ReplicaN, shardGroups := [] }
        let db' := { db with policies := mapUpdate db.policies c.Name rp }
        (none, { s with databases := mapUpdate s.databases c.Database db' })

/-- `applyUpdateRetentionPolicy`: validations; when `NewName` is non-empty
and differs, delete the entry under the old name, mutate the policy's name
and re-insert under the new key; persist and return the transaction's
error (the in-memory rename stands either way). -/
def applyUpdateRetentionPolicy (mo : MetaOutcome) (s : ServerState)
    (c : UpdateRetentionPolicyCommand) : Option GoError × ServerState :=
  match s.databases c.Database with
  | none => (some .DatabaseNotFound, s)
  | some db =>
    if c.Name = "" then (some .RetentionPolicyNameRequired, s)
    else
      match db.policies c.Name with
      | none => (some .RetentionPolicyNotFound, s)
      | some p =>
        let db' :=
          if c.NewName ≠ c.Name ∧ c.NewName ≠ "" then
            { db with policies :=
                mapUpdate (mapDelete db.policies p.Name) c.NewName { p with Name := c.NewName } }
          else db
        (mo, { s with databases := mapUpdate s.databases c.Database db' })

/-- `applyDeleteRetentionPolicy`: validations; remove the policy; persist
and return the transaction's error (the removal stands either way). -/
def applyDeleteRetentionPolicy (mo : MetaOutcome) (s : ServerState)
    (c : DeleteRetentionPolicyCommand) : Option GoError × ServerState :=
  match s.databases c.Database with
  | none => (some .DatabaseNotFound, s)
  | some db =>
    if c.Name = "" then (some .RetentionPolicyNameRequired, s)
    else
      match db.policies c.Name with
      | none => (some .RetentionPolicyNotFound, s)
      | some _ =>
        let db' := { db with policies := mapDelete db.policies c.Name }
        (mo, { s with databases := mapUpdate s.databases c.Database db' })

/-- `applySetDefaultRetentionPolicy`: the target must exist; set the
default name; persist and return the transaction's error. -/
def applySetDefaultRetentionPolicy (mo : MetaOutcome) (s : ServerState)
    (c : SetDefaultRetentionPolicyCommand) : Option GoError × ServerState :=
  match s.databases c.Database with
  | none => (some .DatabaseNotFound, s)
  | some db =>
    match db.policies c.Name with
    | none => (some .RetentionPolicyNotFound, s)
    | some _ =>
      let db' := { db with defaultRetentionPolicy := c.Name }
      (mo, { s with databases := mapUpdate s.databases c.Database db' })

/-- `applyCreateUser`: validations, hash the password, persist, then
insert into the user map; as in the source the insertion happens and the
transaction's error is returned regardless of its outcome. -/
def applyCreateUser (mo : MetaOutcome) (s : ServerState)
    (c : CreateUserCommand) : Option GoError × ServerState :=
  if c.Username = "" then (some .UsernameRequired, s)
  else
    match s.users c.Username with
    | some _ => (some .UserExists, s)
    | none =>
      let u : User := { Name := c.Username, Hash := HashPassword c.Password, Admin := c.Admin }
      (mo, { s with users := mapUpdate s.users u.Name u })

/-- `applyUpdateUser`: 404 when absent; rehash only when the password is
non-empty; persist and return the transaction's error. -/
def applyUpdateUser (mo : MetaOutcome) (s : ServerState)
    (c : UpdateUserCommand) : Option GoError × ServerState :=
  match s.users c.Username with
  | none => (some .UserNotFound, s)
  | some u =>
    let u' := if c.Password ≠ "" then { u with Hash := HashPassword c.Password } else u
    (mo, { s with users := mapUpdate s.users c.Username u' })

/-- `applyDeleteUser`: validations; the source ignores the metastore
transaction's result entirely, deletes the user and returns nil. -/
def applyDeleteUser (_mo : MetaOutcome) (s : ServerState)
    (c : DeleteUserCommand) : Option GoError × ServerState :=
  if c.Username = "" then (some .UsernameRequired, s)
  else
    match s.users c.Username with
    | none => (some .UserNotFound, s)
    | some _ => (none, { s with users := mapDelete s.users c.Username })

/-- `applyCreateSeriesIfNotExists`: return nil when the series already
exists; otherwise allocate a persistent series id in the transaction and
add the series to the in-memory index (only after a successful
transaction — this handler checks the error before mutating). -/
def applyCreateSeriesIfNotExists (mo : MetaOutcome) (s : ServerState)
    (c : CreateSeriesIfNotExistsCommand) : Option GoError × ServerState :=
  match s.databases c.Database with
  | none => (some .DatabaseNotFound, s)
  | some db =>
    match db.MeasurementAndSeries c.Name c.Tags with
    | some _ => (none, s)
    | none =>
      match mo with
      | some e => (some e, s)
      | none =>
        let sid := s.meta.seriesID + 1
        let sr : Series := { ID := sid, Tags := c.Tags }
        (none, { s with meta := { s.meta with seriesID := sid },
                        databases := mapUpdate s.databases c.Database (db.addSeriesToIndex c.Name sr) })

/-- Go's `time.Time.Truncate` on nanosecond timestamps: rounds down to a
multiple of `d` since the zero time; returns `t` unchanged when `d ≤ 0`. -/
def truncateTime (t d : Int) : Int :=
  if d ≤ 0 then t else t - t.emod d

/-- The replica-count coercion of `applyCreateShardGroupIfNotExists`:
require at least one replica but no more replicas than nodes
(`if replicaN == 0 then 1 else if replicaN > len(nodes) then len(nodes)`). -/
def effectiveReplicaN (replicaN n : Nat) : Nat :=
  if replicaN = 0 then 1
  else if replicaN > n then n
  else replicaN

/-- The shard-id allocation loop of the transaction: each shard receives
the next value of the metastore's shard-id sequence; returns the updated
shards and the final counter. -/
def allocShardIDs (counter : Nat) : List Shard → List Shard × Nat
  | [] => ([], counter)
  | sh :: rest =>
    let r := allocShardIDs (counter + 1) rest
    ({ sh with ID := counter + 1 } :: r.1, r.2)

/-- The inner replica loop: starting from the running `nodeIndex`, pick
`replicaN` nodes round-robin (`nodes[nodeIndex % len(nodes)]`, then
increment) and collect their ids. -/
def assignedNodeIDs (nodes : List DataNode) : Nat → Nat → List Nat
  | _, 0 => []
  | nodeIndex, k + 1 =>
    (nodes.getD (nodeIndex % nodes.length) zeroDataNode).ID ::
      assignedNodeIDs nodes (nodeIndex + 1) k

/-- The outer placement loop: walk the shards, appending `replicaN`
round-robin node ids to each, threading the running `nodeIndex`. -/
def assignDataNodes (nodes : List DataNode) (replicaN : Nat) : Nat → List Shard → List Shard
  | _, [] => []
  | nodeIndex, sh :: rest =>
    { sh with DataNodeIDs := sh.DataNodeIDs ++ assignedNodeIDs nodes nodeIndex replicaN } ::
      assignDataNodes nodes replicaN (nodeIndex + replicaN) rest

/-- `applyCreateShardGroupIfNotExists`: look up database and policy,
ignore the request when an existing group of the policy contains the
timestamp; otherwise build the group for the truncated window, sort the
data nodes by id, clamp the replica count, create `len(nodes)/replicaN`
shards, and inside the metastore transaction allocate the group and shard
ids and place replicas round-robin starting at `m.Index mod len(nodes)`.
On transaction failure the group is discarded and the error returned; on
success the shards enter the shard map and the group is appended to the
policy.  Shard-store opening and broker subscription are external side
effects with no in-memory server state (Go panics if a local shard store
fails to open).  Note Go panics on the modulo when no data node exists;
the embedding is total, so theorems only quantify over states with at
least one data node. -/
def applyCreateShardGroupIfNotExists (mo : MetaOutcome) (s : ServerState)
    (mIndex : Nat) (c : CreateShardGroupIfNotExistsCommand) : Option GoError × ServerState :=
  match s.databases c.Database with
  | none => (some .DatabaseNotFound, s)
  | some db =>
    match db.policies c.Policy with
    | none => (some .RetentionPolicyNotFound, s)
    | some rp =>
      match rp.shardGroupByTimestamp c.Timestamp with
      | some _ => (none, s)
      | none =>
        let startTime := truncateTime c.Timestamp rp.Duration
        let nodes := sortDataNodes s.dataNodes
        let replicaN := effectiveReplicaN rp.ReplicaN nodes.length
        let shardN := nodes.length / replicaN
        let shards0 := List.replicate shardN newShard
        match mo with
        | some e => (some e, s)
        | none =>
          let gid := s.meta.shardGroupID + 1
          let alloc := allocShardIDs s.meta.shardID shards0
          let nodeIndex := mIndex % nodes.length
          let shards2 := assignDataNodes nodes replicaN nodeIndex alloc.1
          let g : ShardGroup :=
            { ID := gid, StartTime := startTime, EndTime := startTime + rp.Duration,
              Shards := shards2 }
          let rp' := { rp with shardGroups := rp.shardGroups ++ [g] }
          let db' := { db with policies := mapUpdate db.policies c.Policy rp' }
          let shardMap := shards2.foldl
            (fun mp sh => fun i => if i = sh.ID then some sh else mp i) s.shards
          (none, { s with
              meta := { s.meta with shardGroupID := gid, shardID := alloc.2 },
              shards := shardMap,
              databases := mapUpdate s.databases c.Database db' })

/-- The per-value loop of `applyWriteSeries`: find or create each field
(`createFieldIfNotExists`, modelled from the spec: field ids are assigned
1..255 and the 256th field is dropped with a log entry), returning the
updated measurement and the raw field-id-keyed values. -/
def applyWriteSeriesValues (mm : Measurement) :
    List (String × FieldValue) → Measurement × List (Nat × FieldValue)
  | [] => (mm, [])
  | (k, v) :: rest =>
    match mm.fields.find? (fun f => f.Name == k) with
    | some f =>
      let (mm2, l) := applyWriteSeriesValues mm rest
      (mm2, (f.ID, v) :: l)
    | none =>
      if mm.fields.length ≥ 255 then
        -- field overflow: logged and skipped
        applyWriteSeriesValues mm rest
      else
        let f : Field := { ID := mm.fields.length + 1, Name := k }
        let (mm2, l) := applyWriteSeriesValues { mm with fields := mm.fields ++ [f] } rest
        (mm2, (f.ID, v) :: l)

/-- `applyWriteSeries` (non-raw): locate the shard by topic id, resolve
database and measurement, create missing fields, persist the schema via
the metastore (an error is returned, the in-memory fields staying), and
hand the re-encoded values to the shard store (external storage engine,
modelled as succeeding). -/
def applyWriteSeries (mo : MetaOutcome) (s : ServerState) (topicID : Nat)
    (c : WriteSeriesCommandData) : Option GoError × ServerState :=
  match s.shards topicID with
  | none => (some .ShardNotFound, s)
  | some _ =>
    match s.databases c.Database with
    | none => (some .DatabaseNotFound, s)
    | some db =>
      match db.measurements c.Measurement with
      | none => (some .MeasurementNotFound, s)
      | some mm =>
        let mm' := (applyWriteSeriesValues mm c.Values).1
        let db' := { db with measurements := mapUpdate db.measurements c.Measurement mm' }
        let s' := { s with databases := mapUpdate s.databases c.Database db' }
        match mo with
        | some e => (some e, s')
        | none => (none, s')

/-- `applyWriteRawSeries`: locate the shard by topic id and hand the data
to the shard store (external storage engine, modelled as succeeding); no
schema work. -/
def applyWriteRawSeries (s : ServerState) (topicID : Nat)
    (_c : WriteRawSeriesData) : Option GoError × ServerState :=
  match s.shards topicID with
  | none => (some .ShardNotFound, s)
  | some _ => (none, s)

/-- The dispatch switch of `processor`: route a message to its apply
handler; message types outside the switch leave the error nil and the
state untouched. -/
def applyMessage (mo : MetaOutcome) (s : ServerState) (m : Message) :
    Option GoError × ServerState :=
  match m.payload with
  | .writeSeries c => applyWriteSeries mo s m.TopicID c
  | .writeRawSeries c => applyWriteRawSeries s m.TopicID c
  | .createDataNode c => applyCreateDataNode mo s c
  | .deleteDataNode c => applyDeleteDataNode mo s c
  | .createDatabase c => applyCreateDatabase mo s c
  | .deleteDatabase c => applyDeleteDatabase mo s c
  | .createUser c => applyCreateUser mo s c
  | .updateUser c => applyUpdateUser mo s c
  | .deleteUser c => applyDeleteUser mo s c
  | .createRetentionPolicy c => applyCreateRetentionPolicy mo s c
  | .updateRetentionPolicy c => applyUpdateRetentionPolicy mo s c
  | .deleteRetentionPolicy c => applyDeleteRetentionPolicy mo s c
  | .createShardGroupIfNotExists c => applyCreateShardGroupIfNotExists mo s m.Index c
  | .setDefaultRetentionPolicy c => applySetDefaultRetentionPolicy mo s c
  | .createSeriesIfNotExists c => applyCreateSeriesIfNotExists mo s c
  | .unknown _ => (none, s)

/-- One iteration of `processor`: apply the message, then under the lock
record `s.index = m.Index` and, if the handler errored, insert the error
under the message's index. -/
def processMessage (mo : MetaOutcome) (s : ServerState) (m : Message) : ServerState :=
  let (err, s') := applyMessage mo s m
  { s' with
      index := m.Index,
      errors := match err with
        | some e => fun i => if i = m.Index then some e else s'.errors i
        | none => s'.errors }

/-- Iterated `processor` over a delivered message sequence, each message
paired with the outcome of its metastore transaction. -/
def processMessages (s : ServerState) : List (MetaOutcome × Message) → ServerState
  | [] => s
  | (mo, m) :: rest => processMessages (processMessage mo s m) rest

/-- The successive values assigned to `s.index` while processing a
message sequence. -/
def indexTrace (s : ServerState) : List (MetaOutcome × Message) → List Nat
  | [] => []
  | (mo, m) :: rest =>
    let s' := processMessage mo s m
    s'.index :: indexTrace s' rest

/-- `Sync(index)` once the applied high-water mark has reached `index`
(the loop's exit iteration): read the error recorded under `index`,
delete that entry from the error map, and return the error (`none` when
no error was recorded). -/
def Sync (s : ServerState) (index : Nat) : Option GoError × ServerState :=
  (s.errors index, { s with errors := fun i => if i = index then none else s.errors i })

/-- The broker's broadcast topic id (topic 0). -/
def broadcastTopicID : Nat := 0

/-- The server together with its view of the external broker: the ordered
log of published messages (indices are 1-based positions) and, for
messages not yet applied, the outcome the metastore transaction will have
when the apply engine reaches log index `i` (`metaOutcomes i`). -/
structure SysState where
  server : ServerState
  log : List Message
  metaOutcomes : Nat → MetaOutcome

/-- `client.Publish`: append to the totally ordered log and return the
assigned log index. -/
def publish (st : SysState) (topicID : Nat) (p : Payload) : Nat × SysState :=
  let idx := st.log.length + 1
  (idx, { st with log := st.log ++ [{ Index := idx, TopicID := topicID, payload := p }] })

/-- `broadcast`: publish on the broadcast topic, let the apply engine
process the message (the single-node synchronous semantics: the local
processor consumes the broadcast topic in log order), then `Sync` to
read-and-delete the recorded error.  Returns the log index and the error
`Sync` surfaced. -/
def broadcast (st : SysState) (p : Payload) : (Nat × Option GoError) × SysState :=
  let (idx, st1) := publish st broadcastTopicID p
  let m : Message := { Index := idx, TopicID := broadcastTopicID, payload := p }
  let server1 := processMessage (st1.metaOutcomes idx) st1.server m
  let (e, server2) := Sync server1 idx
  ((idx, e), { st1 with server := server2 })

/-- `Server.createSeriesIfNotExists` (the command-surface helper): find
the series locally; when missing, broadcast `createSeriesIfNotExists`,
then look the series up again (through the same database, which the apply
handler mutated) and fail with `ErrSeriesNotFound` when it is still
missing. -/
def createSeriesIfNotExists (st : SysState) (database name : String)
    (tags : List (String × String)) : Except GoError Nat × SysState :=
  match st.server.databases database with
  | none => (.error (.other "database not found"), st)
  | some idx =>
    match idx.MeasurementAndSeries name tags with
    | some (_, sr) => (.ok sr.ID, st)
    | none =>
      let ((_, e), st1) := broadcast st (.createSeriesIfNotExists ⟨database, name, tags⟩)
      match e with
      | some err => (.error err, st1)
      | none =>
        match st1.server.databases database with
        | none => (.error .SeriesNotFound, st1)
        | some idx1 =>
          match idx1.MeasurementAndSeries name tags with
          | none => (.error .SeriesNotFound, st1)
          | some (_, sr) => (.ok sr.ID, st1)

/-- `Server.DefaultRetentionPolicy`: the database's default policy; `none`
inside `ok` when the default name resolves to no policy. -/
def DefaultRetentionPolicy (s : ServerState) (database : String) :
    Except GoError (Option RetentionPolicy) :=
  match s.databases database with
  | none => .error .DatabaseNotFound
  | some db => .ok (db.policies db.defaultRetentionPolicy)

/-- `Server.measurement`: a measurement by database and name. -/
def measurement (s : ServerState) (database name : String) :
    Except GoError (Option Measurement) :=
  match s.databases database with
  | none => .error .DatabaseNotFound
  | some db => .ok (db.measurements name)

/-- Modelled from the spec: `database.go`'s lookup behind
`Server.shardGroupByTimestamp` — resolve the policy, then the group of the
policy containing the timestamp. -/
def Database.shardGroupByTimestamp (db : Database) (policy : String) (t : Int) :
    Except GoError (Option ShardGroup) :=
  match db.policies policy with
  | none => .error .RetentionPolicyNotFound
  | some rp => .ok (rp.shardGroupByTimestamp t)

/-- `Server.shardGroupByTimestamp`: group for database, policy and
timestamp. -/
def shardGroupByTimestamp (s : ServerState) (database policy : String) (t : Int) :
    Except GoError (Option ShardGroup) :=
  match s.databases database with
  | none => .error .DatabaseNotFound
  | some db => db.shardGroupByTimestamp policy t

/-- `Server.createShardGroupIfNotExists` (lower-case helper): return the
existing group when one covers the timestamp; otherwise broadcast the
`createShardGroupIfNotExists` command and look the group up again. -/
def createShardGroupIfNotExistsCmd (st : SysState) (database policy : String) (t : Int) :
    Except GoError (Option ShardGroup) × SysState :=
  match shardGroupByTimestamp st.server database policy t with
  | .error e => (.error e, st)
  | .ok (some g) => (.ok (some g), st)
  | .ok none =>
    let ((_, e), st1) := broadcast st (.createShardGroupIfNotExists ⟨database, policy, t⟩)
    match e with
    | some err => (.error err, st1)
    | none =>
      match shardGroupByTimestamp st1.server database policy t with
      | .error e2 => (.error e2, st1)
      | .ok g => (.ok g, st1)

/-- A point submitted to `WriteSeries`. -/
structure Point where
  Name : String
  Tags : List (String × String)
  Timestamp : Int
  Values : List (String × FieldValue)
  deriving DecidableEq, Repr

/-- `Server.WriteSeries`: resolve the series id (broadcasting series
creation when needed), default the retention policy, resolve the
measurement, acquire the shard group (broadcasting its creation when
needed), pick the shard by `seriesID mod |shards|`, short-circuit when
the point carries no values, and otherwise publish the point — raw when
every value key maps to a known field id, non-raw otherwise — on the
shard's topic.  Point writes are not synced; the publish index is
returned immediately.  Batches of length ≠ 1 are rejected up front. -/
def WriteSeries (st : SysState) (database retentionPolicy : String) (points : List Point) :
    (Nat × Option GoError) × SysState :=
  match points with
  | [p] =>
    match createSeriesIfNotExists st database p.Name p.Tags with
    | (.error e, st1) => ((0, some e), st1)
    | (.ok seriesID, st1) =>
      let rpName : Except GoError String :=
        if retentionPolicy = "" then
          match DefaultRetentionPolicy st1.server database with
          | .error e => .error (.other ("failed to determine default retention policy: " ++ reprStr e))
          | .ok none => .error .DefaultRetentionPolicyNotFound
          | .ok (some rp) => .ok rp.Name
        else .ok retentionPolicy
      match rpName with
      | .error e => ((0, some e), st1)
      | .ok rpName =>
        match measurement st1.server database p.Name with
        | .error e => ((0, some e), st1)
        | .ok none => ((0, some .MeasurementNotFound), st1)
        | .ok (some m) =>
          match createShardGroupIfNotExistsCmd st1 database rpName p.Timestamp with
          | (.error e, st2) => ((0, some (.other ("create shard: " ++ reprStr e))), st2)
          | (.ok none, st2) =>
            -- Go dereferences the nil group and panics; unreachable when the group resolves
            ((0, some (.other "nil shard group")), st2)
          | (.ok (some g), st2) =>
            match g.ShardBySeriesID seriesID with
            | none =>
              -- Go indexes into an empty shard slice and panics
              ((0, some (.other "no shards in group")), st2)
            | some sh =>
              if p.Values.length = 0 then ((0, none), st2)
              else
                match m.mapValues p.Values with
                | none =>
                  let (idx, st3) := publish st2 sh.ID
                    (.writeSeries ⟨database, p.Name, seriesID, p.Timestamp, p.Values⟩)
                  ((idx, none), st3)
                | some _raw =>
                  let (idx, st3) := publish st2 sh.ID
                    (.writeRawSeries ⟨seriesID, p.Timestamp⟩)
                  ((idx, none), st3)
  | _ => ((0, some (.other "batching WriteSeries has not been implemented yet")), st)

/-- A statement result (`Result`); the planner's rows are external to this
embedding, so only the error component is kept. -/
structure Result where
  Err : Option GoError
  deriving DecidableEq, Repr

/-- The sentinel result used to fill unexecuted slots. -/
def notExecutedResult : Result := { Err := some .NotExecuted }

/-- A parsed statement, one constructor per case of `ExecuteQuery`'s
dispatch switch.  The per-statement executors (which wrap the command
surface and the query planner) are abstracted as the `Result` they would
return; the `continue` cases of the switch (unimplemented statement
kinds) carry nothing. -/
inductive Statement where
  | select (res : Result)
  | createDatabase (res : Result)
  | dropDatabase (res : Result)
  | listDatabases (res : Result)
  | createUser (res : Result)
  | dropUser (res : Result)
  | dropSeries
  | listSeries
  | listMeasurements
  | listTagKeys
  | listTagValues
  | listFieldKeys
  | listFieldValues
  | grant
  | revoke
  | createRetentionPolicy (res : Result)
  | alterRetentionPolicy (res : Result)
  | dropRetentionPolicy (res : Result)
  | listRetentionPolicies (res : Result)
  | createContinuousQuery
  | dropContinuousQuery
  | listContinuousQueries
  deriving DecidableEq, Repr

/-- The body of one dispatch-switch arm: the executor's result for
executed statement kinds, `none` for the kinds the switch skips with
`continue`. -/
def execStatement : Statement → Option Result
  | .select res => some res
  | .createDatabase res => some res
  | .dropDatabase res => some res
  | .listDatabases res => some res
  | .createUser res => some res
  | .dropUser res => some res
  | .createRetentionPolicy res => some res
  | .alterRetentionPolicy res => some res
  | .dropRetentionPolicy res => some res
  | .listRetentionPolicies res => some res
  | .dropSeries => none
  | .listSeries => none
  | .listMeasurements => none
  | .listTagKeys => none
  | .listTagValues => none
  | .listFieldKeys => none
  | .listFieldValues => none
  | .grant => none
  | .revoke => none
  | .createContinuousQuery => none
  | .dropContinuousQuery => none
  | .listContinuousQueries => none

/-- The statement loop of `ExecuteQuery`: one slot per statement, filled
with the executor's result; skipped kinds leave their slot empty, and a
statement-level error breaks out of the loop, leaving all later slots
empty. -/
def execLoop : List Statement → List (Option Result)
  | [] => []
  | st :: rest =>
    match execStatement st with
    | none => none :: execLoop rest
    | some res =>
      if res.Err.isSome then some res :: rest.map (fun _ => none)
      else some res :: execLoop rest

/-- `Server.ExecuteQuery`: run the statement loop, then fill every empty
slot with the `NotExecuted` sentinel. -/
def ExecuteQuery (stmts : List Statement) : List Result :=
  (execLoop stmts).map (fun o => o.getD notExecutedResult)

/-- The claim's reading of `ExecuteQuery`, written from the spec's words:
walk the statements in order, emitting the executor's result; halt at the
first statement whose result carries an error; every slot that is not
executed — skipped kinds and every slot after the first error — becomes
the `NotExecuted` sentinel. -/
def specExecuteQuery : List Statement → List Result
  | [] => []
  | st :: rest =>
    match execStatement st with
    | none => notExecutedResult :: specExecuteQuery rest
    | some res =>
      if res.Err.isSome then res :: rest.map (fun _ => notExecutedResult)
      else res :: specExecuteQuery rest

/-! Helper lemmas about the embedded operations, shared by several claim
theorems. -/

theorem mapUpdate_self {α : Type} (m : String → Option α) (k : String) (v : α) :
    mapUpdate m k v k = some v := by
  simp [mapUpdate]

theorem mapUpdate_ne {α : Type} (m : String → Option α) (k x : String) (v : α)
    (h : x ≠ k) : mapUpdate m k v x = m x := by
  simp [mapUpdate, h]

theorem mapDelete_self {α : Type} (m : String → Option α) (k : String) :
    mapDelete m k k = none := by
  simp [mapDelete]

theorem mapDelete_ne {α : Type} (m : String → Option α) (k x : String)
    (h : x ≠ k) : mapDelete m k x = m x := by
  simp [mapDelete, h]

theorem execLoop_length (stmts : List Statement) :
    (execLoop stmts).length = stmts.length := by
  induction stmts with
  | nil => rfl
  | cons st rest ih =>
    unfold execLoop
    cases execStatement st with
    | none => simpa using ih
    | some res =>
      by_cases h : res.Err.isSome <;> simp [h, ih]

/-- An empty freshly initialized server (as after `NewServer` plus an
assigned id), used as the concrete state of several witnesses. -/
def emptyServer : ServerState :=
  { id := 1, index := 0, errors := fun _ => none,
    meta := { dataNodeID := 0, shardGroupID := 0, shardID := 0, seriesID := 0 },
    dataNodes := [], databases := fun _ => none,
    shards := fun _ => none, users := fun _ => none }

/-! Claim C3: `Sync` returns the recorded error and clears it. -/

/-- C3: once the applied high-water mark `s.index` is at least `index`,
`Sync` returns exactly the error the apply loop recorded under
`errors[index]` (nil when none was recorded), removes that entry from the
error map while leaving the high-water mark alone, and therefore a second
`Sync` on the same index returns nil. -/
theorem claim_C3_sync (s : ServerState) (index : Nat) (h : index ≤ s.index) :
    (Sync s index).1 = s.errors index ∧
    (Sync s index).2.errors index = none ∧
    (Sync s index).2.index = s.index ∧
    (Sync (Sync s index).2 index).1 = none := by
  refine ⟨rfl, ?_, rfl, ?_⟩ <;> simp [Sync]

/-- Witness for C3 at a concrete state: index 1 applied with a recorded
error. -/
theorem claim_C3_sync_witness :
    (1 ≤ ({ emptyServer with index := 2 } : ServerState).index) ∧
    ((Sync { emptyServer with index := 2 } 1).1 =
       ({ emptyServer with index := 2 } : ServerState).errors 1 ∧
     (Sync { emptyServer with index := 2 } 1).2.errors 1 = none ∧
     (Sync { emptyServer with index := 2 } 1).2.index =
       ({ emptyServer with index := 2 } : ServerState).index ∧
     (Sync (Sync { emptyServer with index := 2 } 1).2 1).1 = none) :=
  ⟨by decide, claim_C3_sync { emptyServer with index := 2 } 1 (by decide)⟩

/-! Claim C8: `ExecuteQuery` halts at the first error and fills the rest
with the `NotExecuted` sentinel. -/

/-- C8: `ExecuteQuery` produces exactly one result per statement, equal to
the spec's reading: statements are executed in order until the first one
whose result carries an error; every slot that was not executed — the
skipped statement kinds and every slot after the first error — is the
`NotExecuted` sentinel. -/
theorem claim_C8_execute_query (stmts : List Statement) :
    ExecuteQuery stmts = specExecuteQuery stmts ∧
    (ExecuteQuery stmts).length = stmts.length := by
  constructor
  · induction stmts with
    | nil => rfl
    | cons st rest ih =>
      unfold ExecuteQuery execLoop specExecuteQuery
      cases execStatement st with
      | none => simpa [ExecuteQuery] using ih
      | some res =>
        by_cases h : res.Err.isSome
        · simp [h, List.map_map, notExecutedResult, Function.comp]
        · simpa [h, ExecuteQuery] using ih
  · simp [ExecuteQuery, execLoop_length]

/-! Claim C9: the divisors in the shard-group placement. -/

/-- C9: in `applyCreateShardGroupIfNotExists`, whenever the state has at
least one data node, both the divisor of the shard-count division (the
clamped replica count `effectiveReplicaN`) and the divisor of the
placement-offset modulo (the node count) are nonzero, so the
division-by-zero branch is unreachable; with zero data nodes the modulo
divisor is zero, and so is the division divisor whenever
`policy.ReplicaN > 0`. -/
theorem claim_C9_divisors (r n : Nat) :
    (1 ≤ n → 0 < effectiveReplicaN r n ∧ 0 < n) ∧
    (n = 0 → 0 < r → effectiveReplicaN r n = 0) := by
  unfold effectiveReplicaN
  constructor
  · intro h
    refine ⟨?_, h⟩
    split
    · exact Nat.one_pos
    · split <;> omega
  · intro h hr
    subst h
    simp only [if_neg (by omega : ¬ r = 0)]
    split <;> omega

/-- Witness for C9 at concrete replica counts and node counts. -/
theorem claim_C9_divisors_witness :
    (0 < effectiveReplicaN 3 2 ∧ 0 < 2) ∧ effectiveReplicaN 3 0 = 0 :=
  ⟨(claim_C9_divisors 3 2).1 (by decide), (claim_C9_divisors 3 0).2 rfl (by decide)⟩

/-! Claim C1: in-memory mutation versus metastore failure in
`applyCreateDataNode` / `applyCreateDatabase`. -/

/-- C1 counterexample: on the empty server, apply `createDatabase "a"`
with a failing metastore transaction.  The handler returns the
persistence error, yet the database map — empty before the apply — now
contains `"a"`: the in-memory mutation is neither reverted nor skipped,
refuting the claim. -/
theorem claim_C1_counterexample :
    (applyCreateDatabase (some (.other "meta update failed")) emptyServer ⟨"a"⟩).1 =
      some (GoError.other "meta update failed") ∧
    (emptyServer.databases "a").isSome = false ∧
    ((applyCreateDatabase (some (.other "meta update failed")) emptyServer ⟨"a"⟩).2.databases
      "a").isSome = true := by
  refine ⟨rfl, rfl, ?_⟩
  simp [applyCreateDatabase, emptyServer, mapUpdate]

/-- C1 amended: when the metastore update transaction of
`applyCreateDataNode` or `applyCreateDatabase` fails (with the parameter
validation having passed), the handler returns the persistence error but
the in-memory insertion is still performed: the database map gains the new
database and the data-node list gains a new node. -/
theorem claim_C1_amended (s : ServerState) (e : GoError)
    (cdb : CreateDatabaseCommand) (cdn : CreateDataNodeCommand)
    (hdb : s.databases cdb.Name = none)
    (hurl : cdn.URL ≠ "")
    (hdup : s.dataNodes.any (fun n => n.URL == cdn.URL) = false) :
    (applyCreateDatabase (some e) s cdb).1 = some e ∧
    ((applyCreateDatabase (some e) s cdb).2.databases cdb.Name).isSome = true ∧
    (applyCreateDataNode (some e) s cdn).1 = some e ∧
    (applyCreateDataNode (some e) s cdn).2.dataNodes.length = s.dataNodes.length + 1 := by
  refine ⟨?_, ?_, ?_, ?_⟩ <;>
    simp [applyCreateDatabase, applyCreateDataNode, hdb, hurl, hdup, mapUpdate]

/-- Witness for the amended C1 on the empty server. -/
theorem claim_C1_amended_witness :
    (emptyServer.databases "a" = none ∧ ("u" : String) ≠ "" ∧
     emptyServer.dataNodes.any (fun n => n.URL == "u") = false) ∧
    ((applyCreateDatabase (some (.other "boom")) emptyServer ⟨"a"⟩).1 =
       some (GoError.other "boom") ∧
     ((applyCreateDatabase (some (.other "boom")) emptyServer ⟨"a"⟩).2.databases "a").isSome =
       true ∧
     (applyCreateDataNode (some (.other "boom")) emptyServer ⟨"u"⟩).1 =
       some (GoError.other "boom") ∧
     (applyCreateDataNode (some (.other "boom")) emptyServer ⟨"u"⟩).2.dataNodes.length =
       emptyServer.dataNodes.length + 1) :=
  ⟨⟨rfl, by decide, rfl⟩,
   claim_C1_amended emptyServer (.other "boom") ⟨"a"⟩ ⟨"u"⟩ rfl (by decide) rfl⟩

/-! Claim C10: renaming onto an existing policy name silently replaces
it. -/

/-- C10: `applyUpdateRetentionPolicy` never checks whether a policy named
`NewName` already exists: renaming policy `A` to `B` in a database that
contains both returns nil (on a successful transaction), deletes the
entry under `A`, and overwrites the entry under `B` with the renamed
policy `A`, losing policy `B`; every other policy is untouched. -/
theorem claim_C10_rename_overwrites (s : ServerState) (dbName A B : String)
    (db : Database) (pA pB : RetentionPolicy)
    (hdb : s.databases dbName = some db)
    (hA : db.policies A = some pA) (hAname : pA.Name = A)
    (hB : db.policies B = some pB)
    (hAB : A ≠ B) (hAe : A ≠ "") (hBe : B ≠ "") :
    (applyUpdateRetentionPolicy none s ⟨dbName, A, B⟩).1 = none ∧
    ∃ db1, (applyUpdateRetentionPolicy none s ⟨dbName, A, B⟩).2.databases dbName = some db1 ∧
      db1.policies B = some { pA with Name := B } ∧
      db1.policies A = none ∧
      ∀ x, x ≠ A → x ≠ B → db1.policies x = db.policies x := by
  have hcond : B ≠ A ∧ B ≠ "" := ⟨fun h => hAB h.symm, hBe⟩
  refine ⟨?_, ?_⟩
  · simp [applyUpdateRetentionPolicy, hdb, hA, hAe, hcond]
  · let p2 : RetentionPolicy := { pA with Name := B }
    refine ⟨{ db with policies := mapUpdate (mapDelete db.policies pA.Name) B p2 }, ?_, ?_, ?_, ?_⟩
    · simp [applyUpdateRetentionPolicy, hdb, hA, hAe, hcond, mapUpdate_self]
    · simp [mapUpdate_self]
    · show mapUpdate (mapDelete db.policies pA.Name) B p2 A = none
      rw [mapUpdate_ne _ _ _ _ hAB, hAname, mapDelete_self]
    · intro x hxA hxB
      show mapUpdate (mapDelete db.policies pA.Name) B p2 x = db.policies x
      rw [mapUpdate_ne _ _ _ _ hxB, hAname, mapDelete_ne _ _ _ hxA]

/-- Policy `"a"` of the concrete two-policy database below. -/
def c10PolicyA : RetentionPolicy :=
  { Name := "a", Duration := 10, ReplicaN := 1, shardGroups := [] }

/-- Policy `"b"` of the concrete two-policy database below. -/
def c10PolicyB : RetentionPolicy :=
  { Name := "b", Duration := 20, ReplicaN := 2, shardGroups := [] }

/-- A concrete database holding the two distinct policies `"a"` and
`"b"`. -/
def c10Database : Database :=
  { newDatabase with
      name := "d",
      policies := mapUpdate (mapUpdate newDatabase.policies "a" c10PolicyA) "b" c10PolicyB }

/-- A concrete server holding `c10Database` under `"d"`. -/
def c10Server : ServerState :=
  { emptyServer with databases := mapUpdate emptyServer.databases "d" c10Database }

/-- Witness for C10: a database with two policies `"a"` and `"b"`. -/
theorem claim_C10_rename_overwrites_witness :
    (c10Server.databases "d" = some c10Database ∧
     c10Database.policies "a" = some c10PolicyA ∧ c10PolicyA.Name = "a" ∧
     c10Database.policies "b" = some c10PolicyB ∧
     ("a" : String) ≠ "b" ∧ ("a" : String) ≠ "" ∧ ("b" : String) ≠ "") ∧
    ((applyUpdateRetentionPolicy none c10Server ⟨"d", "a", "b"⟩).1 = none ∧
     ∃ db1, (applyUpdateRetentionPolicy none c10Server ⟨"d", "a", "b"⟩).2.databases "d" =
         some db1 ∧
       db1.policies "b" = some { c10PolicyA with Name := "b" } ∧
       db1.policies "a" = none ∧
       ∀ x, x ≠ "a" → x ≠ "b" → db1.policies x = c10Database.policies x) :=
  ⟨⟨rfl, rfl, rfl, rfl, by decide, by decide, by decide⟩,
   claim_C10_rename_overwrites c10Server "d" "a" "b" c10Database c10PolicyA c10PolicyB
     rfl rfl rfl rfl (by decide) (by decide) (by decide)⟩

/-- Extensionality for `Database`. -/
theorem databaseExt (a b : Database) (h1 : a.name = b.name)
    (h2 : a.policies = b.policies)
    (h3 : a.defaultRetentionPolicy = b.defaultRetentionPolicy)
    (h4 : a.measurements = b.measurements) : a = b := by
  cases a
  cases b
  cases h1
  cases h2
  cases h3
  cases h4
  rfl

/-- Extensionality for `ServerState`. -/
theorem serverStateExt (a b : ServerState) (h1 : a.id = b.id) (h2 : a.index = b.index)
    (h3 : a.errors = b.errors) (h4 : a.meta = b.meta) (h5 : a.dataNodes = b.dataNodes)
    (h6 : a.databases = b.databases) (h7 : a.shards = b.shards)
    (h8 : a.users = b.users) : a = b := by
  cases a
  cases b
  cases h1
  cases h2
  cases h3
  cases h4
  cases h5
  cases h6
  cases h7
  cases h8
  rfl

/-! Claim C6: the rename round-trip restores the state. -/

/-- The effect of the rename branch of `applyUpdateRetentionPolicy` on
the owning database: drop the entry under the policy's current name and
re-insert the renamed policy under the new key. -/
def renameInDb (db : Database) (p : RetentionPolicy) (newN : String) : Database :=
  { db with policies := mapUpdate (mapDelete db.policies p.Name) newN ({ p with Name := newN }) }

/-- Characterization of a successful rename apply. -/
theorem applyUpdateRetentionPolicy_rename (s : ServerState) (dbName oldN newN : String)
    (db : Database) (p : RetentionPolicy)
    (hdb : s.databases dbName = some db) (hold : db.policies oldN = some p)
    (hoe : oldN ≠ "") (hne : newN ≠ oldN) (hnne : newN ≠ "") :
    applyUpdateRetentionPolicy none s ⟨dbName, oldN, newN⟩ =
      (none, { s with databases := mapUpdate s.databases dbName (renameInDb db p newN) }) := by
  simp [applyUpdateRetentionPolicy, hdb, hold, hoe, hne, hnne, renameInDb]

/-- C6: for a database containing a policy named `A` and no policy named
`B` (`A`, `B` non-empty and distinct), applying
`updateRetentionPolicy(db, A, newName := B)` and then
`updateRetentionPolicy(db, B, newName := A)` (both with successful
metastore transactions) restores the entire server state — in particular
the database's policy map — to its original value. -/
theorem claim_C6_rename_roundtrip (s : ServerState) (dbName A B : String)
    (db : Database) (p : RetentionPolicy)
    (hdb : s.databases dbName = some db)
    (hA : db.policies A = some p) (hpn : p.Name = A)
    (hB : db.policies B = none)
    (hAe : A ≠ "") (hBe : B ≠ "") (hAB : A ≠ B) :
    (applyUpdateRetentionPolicy none
        (applyUpdateRetentionPolicy none s ⟨dbName, A, B⟩).2 ⟨dbName, B, A⟩).2 = s := by
  rw [applyUpdateRetentionPolicy_rename s dbName A B db p hdb hA hAe (Ne.symm hAB) hBe]
  rw [applyUpdateRetentionPolicy_rename _ dbName B A (renameInDb db p B) ({ p with Name := B })
    (mapUpdate_self _ _ _) (by rw [renameInDb]; exact mapUpdate_self _ _ _) hBe hAB hAe]
  have hdbeq : renameInDb (renameInDb db p B) ({ p with Name := B }) A = db := by
    apply databaseExt
    · rfl
    · show mapUpdate (mapDelete (renameInDb db p B).policies B) A
        ({ ({ p with Name := B } : RetentionPolicy) with Name := A }) = db.policies
      funext y
      by_cases hyA : y = A
      · rw [hyA, mapUpdate_self]
        have hpeq : ({ ({ p with Name := B } : RetentionPolicy) with Name := A } :
            RetentionPolicy) = p := by
          cases p
          subst hpn
          rfl
        rw [hpeq, hA]
      · rw [mapUpdate_ne _ _ _ _ hyA]
        by_cases hyB : y = B
        · rw [hyB, mapDelete_self, hB]
        · rw [mapDelete_ne _ _ _ hyB]
          show mapUpdate (mapDelete db.policies p.Name) B ({ p with Name := B }) y =
            db.policies y
          rw [mapUpdate_ne _ _ _ _ hyB, hpn, mapDelete_ne _ _ _ hyA]
    · rfl
    · rfl
  rw [hdbeq]
  apply serverStateExt <;> try rfl
  show mapUpdate (mapUpdate s.databases dbName (renameInDb db p B)) dbName db = s.databases
  funext x
  by_cases hx : x = dbName
  · subst hx
    rw [mapUpdate_self, hdb]
  · rw [mapUpdate_ne _ _ _ _ hx, mapUpdate_ne _ _ _ _ hx]

/-- A concrete database holding only the policy `"a"`. -/
def c6Database : Database :=
  { newDatabase with
      name := "d",
      policies := mapUpdate newDatabase.policies "a" c10PolicyA }

/-- A concrete server holding `c6Database` under `"d"`. -/
def c6Server : ServerState :=
  { emptyServer with databases := mapUpdate emptyServer.databases "d" c6Database }

/-- Witness for C6: renaming `"a"` to `"b"` and back on a concrete
one-policy database restores the server state. -/
theorem claim_C6_rename_roundtrip_witness :
    (c6Server.databases "d" = some c6Database ∧
     c6Database.policies "a" = some c10PolicyA ∧ c10PolicyA.Name = "a" ∧
     c6Database.policies "b" = none ∧
     ("a" : String) ≠ "" ∧ ("b" : String) ≠ "" ∧ ("a" : String) ≠ "b") ∧
    (applyUpdateRetentionPolicy none
        (applyUpdateRetentionPolicy none c6Server ⟨"d", "a", "b"⟩).2 ⟨"d", "b", "a"⟩).2 =
      c6Server :=
  ⟨⟨rfl, rfl, rfl, rfl, by decide, by decide, by decide⟩,
   claim_C6_rename_roundtrip c6Server "d" "a" "b" c6Database c10PolicyA rfl rfl rfl rfl
     (by decide) (by decide) (by decide)⟩

/-! Claim C7: monotonicity of the applied-index high-water mark. -/

/-- `processor` records `s.index = m.Index` unconditionally after every
apply, whatever the handler did. -/
theorem processMessage_index (mo : MetaOutcome) (s : ServerState) (m : Message) :
    (processMessage mo s m).index = m.Index := by
  unfold processMessage
  rcases applyMessage mo s m with ⟨err, s2⟩
  rfl

/-- The trace of values assigned to `s.index` is exactly the sequence of
incoming message indexes. -/
theorem indexTrace_eq_map (s : ServerState) (l : List (MetaOutcome × Message)) :
    indexTrace s l = l.map (fun x => x.2.Index) := by
  induction l generalizing s with
  | nil => rfl
  | cons x rest ih =>
    simp only [indexTrace]
    rw [processMessage_index, ih]
    rfl

/-- C7 counterexample: deliver two broadcast messages whose log indexes
arrive out of order (5 then 3); the processor assigns `s.index = 5` and
then `s.index = 3`, so the sequence of assignments is not
non-decreasing, refuting the claim that it is for every processed
sequence. -/
theorem claim_C7_counterexample :
    ¬ List.Chain' (fun a b => a ≤ b)
      (emptyServer.index :: indexTrace emptyServer
        [(none, { Index := 5, TopicID := 0, payload := .createDatabase ⟨"x"⟩ }),
         (none, { Index := 3, TopicID := 0, payload := .createDatabase ⟨"y"⟩ })]) := by
  have h : emptyServer.index :: indexTrace emptyServer
      [(none, { Index := 5, TopicID := 0, payload := .createDatabase ⟨"x"⟩ }),
       (none, { Index := 3, TopicID := 0, payload := .createDatabase ⟨"y"⟩ })] = [0, 5, 3] := by
    rw [indexTrace_eq_map]
    rfl
  rw [h]
  simp [List.chain'_cons]

/-- C7 amended: each assignment of `s.index` is the incoming message's
log index, so the high-water mark is non-decreasing exactly when the
indexes of the delivered messages are non-decreasing (and at least the
starting mark) — as they are on a single totally ordered topic. -/
theorem claim_C7_amended (s : ServerState) (l : List (MetaOutcome × Message))
    (h : List.Chain' (fun a b => a ≤ b) (s.index :: l.map (fun x => x.2.Index))) :
    List.Chain' (fun a b => a ≤ b) (s.index :: indexTrace s l) := by
  rwa [indexTrace_eq_map]

/-- Witness for the amended C7: an in-order delivery (indexes 1 then 2). -/
theorem claim_C7_amended_witness :
    List.Chain' (fun a b => a ≤ b)
      (emptyServer.index :: indexTrace emptyServer
        [(none, { Index := 1, TopicID := 0, payload := .createDatabase ⟨"x"⟩ }),
         (none, { Index := 2, TopicID := 0, payload := .createDatabase ⟨"y"⟩ })]) :=
  claim_C7_amended emptyServer
    [(none, { Index := 1, TopicID := 0, payload := .createDatabase ⟨"x"⟩ }),
     (none, { Index := 2, TopicID := 0, payload := .createDatabase ⟨"y"⟩ })]
    (by simp [List.chain'_cons, emptyServer])

/-! Claim C2: shard-group placement. -/

instance : IsTotal DataNode (fun a b => a.ID ≤ b.ID) :=
  ⟨fun a b => Nat.le_total a.ID b.ID⟩

instance : IsTrans DataNode (fun a b => a.ID ≤ b.ID) :=
  ⟨fun _ _ _ h1 h2 => Nat.le_trans h1 h2⟩

theorem sortDataNodes_sorted (l : List DataNode) :
    List.Sorted (fun a b => a.ID ≤ b.ID) (sortDataNodes l) :=
  List.sorted_insertionSort _ l

theorem sortDataNodes_perm (l : List DataNode) : (sortDataNodes l).Perm l :=
  List.perm_insertionSort _ l

theorem allocShardIDs_length (c : Nat) (l : List Shard) :
    (allocShardIDs c l).1.length = l.length := by
  induction l generalizing c with
  | nil => rfl
  | cons sh rest ih => simp [allocShardIDs, ih]

theorem allocShardIDs_getD_dataNodeIDs (c : Nat) (l : List Shard) (j : Nat) :
    ((allocShardIDs c l).1.getD j newShard).DataNodeIDs = (l.getD j newShard).DataNodeIDs := by
  induction l generalizing c j with
  | nil => rfl
  | cons sh rest ih =>
    cases j with
    | zero => rfl
    | succ j => exact ih (c + 1) j

theorem assignDataNodes_length (nodes : List DataNode) (r : Nat) (l : List Shard)
    (start : Nat) : (assignDataNodes nodes r start l).length = l.length := by
  induction l generalizing start with
  | nil => rfl
  | cons sh rest ih => simp [assignDataNodes, ih]

theorem assignDataNodes_getD (nodes : List DataNode) (r : Nat) (l : List Shard)
    (start j : Nat) (hj : j < l.length) :
    (assignDataNodes nodes r start l).getD j newShard =
      { l.getD j newShard with
        DataNodeIDs :=
          (l.getD j newShard).DataNodeIDs ++ assignedNodeIDs nodes (start + j * r) r } := by
  induction l generalizing start j with
  | nil => cases hj
  | cons sh rest ih =>
    cases j with
    | zero => simp [assignDataNodes]
    | succ j =>
      have hq : start + r + j * r = start + (j + 1) * r := by ring
      have := ih (start + r) j (Nat.lt_of_succ_lt_succ hj)
      simpa [assignDataNodes, hq] using this

theorem assignedNodeIDs_eq (nodes : List DataNode) (k : Nat) :
    ∀ ni : Nat, assignedNodeIDs nodes ni k =
      (List.range k).map
        (fun i => (nodes.getD ((ni + i) % nodes.length) zeroDataNode).ID) := by
  induction k with
  | zero => intro ni; rfl
  | succ k ih =>
    intro ni
    rw [List.range_succ_eq_map]
    simp only [assignedNodeIDs, List.map_cons, List.map_map, Nat.add_zero]
    refine congrArg₂ _ rfl ?_
    rw [ih (ni + 1)]
    apply List.map_congr_left
    intro i _
    have : ni + 1 + i = ni + (i + 1) := by omega
    simp [Function.comp, this]

theorem effectiveReplicaN_eq_min (r n : Nat) :
    effectiveReplicaN r n = if r = 0 then 1 else min r n := by
  unfold effectiveReplicaN
  by_cases h0 : r = 0
  · simp [h0]
  · simp only [if_neg h0, Nat.min_def]
    by_cases h1 : r > n
    · rw [if_pos h1, if_neg (by omega)]
    · rw [if_neg h1, if_pos (by omega)]

theorem replicate_getD (n j : Nat) {α : Type} (a : α) :
    (List.replicate n a).getD j a = a := by
  induction n generalizing j with
  | zero => rfl
  | succ n ih =>
    cases j with
    | zero => rfl
    | succ j => exact ih j

/-- The spec's round-robin placement formula: shard `j` of the new group
receives replica `i` from node `(start + j·replicaN + i) mod |nodes|` of
the id-sorted node list, where `start = m.Index mod |nodes|`. -/
def roundRobinIDs (nodes : List DataNode) (start j replicaN : Nat) : List Nat :=
  (List.range replicaN).map
    (fun i => (nodes.getD ((start + j * replicaN + i) % nodes.length) zeroDataNode).ID)

/-- C2: applying `createShardGroupIfNotExists` on a state with at least
one data node, when no existing group of the policy contains the
timestamp, clamps the replica count (`ReplicaN = 0` coerced to `1`,
otherwise capped at the node count), creates a group with exactly
`n / replicaN` shards (integer division), and assigns each shard exactly
`replicaN` data-node ids round-robin over the nodes sorted ascending by
id, starting at offset `m.Index mod n`. -/
theorem claim_C2_placement (s : ServerState) (mIdx : Nat)
    (c : CreateShardGroupIfNotExistsCommand) (db : Database) (rp : RetentionPolicy)
    (nodes : List DataNode) (replicaN : Nat)
    (hdb : s.databases c.Database = some db)
    (hrp : db.policies c.Policy = some rp)
    (hng : rp.shardGroupByTimestamp c.Timestamp = none)
    (hnodes : nodes = sortDataNodes s.dataNodes)
    (hrep : replicaN = effectiveReplicaN rp.ReplicaN nodes.length)
    (hn : 1 ≤ nodes.length) :
    replicaN = (if rp.ReplicaN = 0 then 1 else min rp.ReplicaN nodes.length) ∧
    List.Sorted (fun a b => a.ID ≤ b.ID) nodes ∧
    nodes.Perm s.dataNodes ∧
    (applyCreateShardGroupIfNotExists none s mIdx c).1 = none ∧
    (∃ db1 rp1 g,
      (applyCreateShardGroupIfNotExists none s mIdx c).2.databases c.Database = some db1 ∧
      db1.policies c.Policy = some rp1 ∧
      rp1.shardGroups = rp.shardGroups ++ [g] ∧
      g.Shards.length = nodes.length / replicaN ∧
      ∀ j, j < g.Shards.length →
        (g.Shards.getD j newShard).DataNodeIDs =
          roundRobinIDs nodes (mIdx % nodes.length) j replicaN ∧
        (g.Shards.getD j newShard).DataNodeIDs.length = replicaN) := by
  subst hnodes
  subst hrep
  refine ⟨effectiveReplicaN_eq_min _ _,
    sortDataNodes_sorted s.dataNodes, sortDataNodes_perm s.dataNodes, ?_, ?_⟩
  · simp [applyCreateShardGroupIfNotExists, hdb, hrp, hng]
  · simp only [applyCreateShardGroupIfNotExists, hdb, hrp, hng]
    refine ⟨_, _, _, mapUpdate_self _ _ _, mapUpdate_self _ _ _, rfl, ?_, ?_⟩
    · rw [assignDataNodes_length, allocShardIDs_length, List.length_replicate]
    · intro j hj
      rw [assignDataNodes_length, allocShardIDs_length, List.length_replicate] at hj
      have hj2 : j < (allocShardIDs s.meta.shardID
          (List.replicate
            ((sortDataNodes s.dataNodes).length /
              effectiveReplicaN rp.ReplicaN (sortDataNodes s.dataNodes).length)
            newShard)).1.length := by
        rw [allocShardIDs_length, List.length_replicate]
        exact hj
      rw [assignDataNodes_getD _ _ _ _ _ hj2]
      simp only [allocShardIDs_getD_dataNodeIDs, replicate_getD]
      constructor
      · show newShard.DataNodeIDs ++ assignedNodeIDs (sortDataNodes s.dataNodes) _ _ =
          roundRobinIDs (sortDataNodes s.dataNodes) (mIdx % (sortDataNodes s.dataNodes).length)
            j (effectiveReplicaN rp.ReplicaN (sortDataNodes s.dataNodes).length)
        rw [show newShard.DataNodeIDs = ([] : List Nat) from rfl, List.nil_append,
          assignedNodeIDs_eq]
        rfl
      · show (newShard.DataNodeIDs ++ assignedNodeIDs (sortDataNodes s.dataNodes) _ _).length =
          effectiveReplicaN rp.ReplicaN (sortDataNodes s.dataNodes).length
        rw [show newShard.DataNodeIDs = ([] : List Nat) from rfl, List.nil_append,
          assignedNodeIDs_eq, List.length_map, List.length_range]


/-- A retention policy with replication factor 2 and no groups yet. -/
def c2Policy : RetentionPolicy :=
  { Name := "p", Duration := 10, ReplicaN := 2, shardGroups := [] }

/-- A concrete database holding `c2Policy` under `"p"`. -/
def c2Database : Database :=
  { newDatabase with name := "d", policies := mapUpdate newDatabase.policies "p" c2Policy }

/-- A concrete server with two data nodes (delivered out of id order) and
`c2Database`. -/
def c2Server : ServerState :=
  { emptyServer with
      dataNodes := [{ ID := 2, URL := "b" }, { ID := 1, URL := "a" }],
      databases := mapUpdate emptyServer.databases "d" c2Database }

/-- Witness for C2 on the concrete two-node server at log index 7. -/
theorem claim_C2_placement_witness :
    (c2Server.databases "d" = some c2Database ∧
     c2Database.policies "p" = some c2Policy ∧
     c2Policy.shardGroupByTimestamp 3 = none ∧
     sortDataNodes c2Server.dataNodes = sortDataNodes c2Server.dataNodes ∧
     effectiveReplicaN c2Policy.ReplicaN (sortDataNodes c2Server.dataNodes).length =
       effectiveReplicaN c2Policy.ReplicaN (sortDataNodes c2Server.dataNodes).length ∧
     1 ≤ (sortDataNodes c2Server.dataNodes).length) ∧
    (effectiveReplicaN c2Policy.ReplicaN (sortDataNodes c2Server.dataNodes).length =
       (if c2Policy.ReplicaN = 0 then 1
        else min c2Policy.ReplicaN (sortDataNodes c2Server.dataNodes).length) ∧
     List.Sorted (fun a b => a.ID ≤ b.ID) (sortDataNodes c2Server.dataNodes) ∧
     (sortDataNodes c2Server.dataNodes).Perm c2Server.dataNodes ∧
     (applyCreateShardGroupIfNotExists none c2Server 7 ⟨"d", "p", 3⟩).1 = none ∧
     (∃ db1 rp1 g,
       (applyCreateShardGroupIfNotExists none c2Server 7 ⟨"d", "p", 3⟩).2.databases "d" =
         some db1 ∧
       db1.policies "p" = some rp1 ∧
       rp1.shardGroups = c2Policy.shardGroups ++ [g] ∧
       g.Shards.length = (sortDataNodes c2Server.dataNodes).length /
         effectiveReplicaN c2Policy.ReplicaN (sortDataNodes c2Server.dataNodes).length ∧
       ∀ j, j < g.Shards.length →
         (g.Shards.getD j newShard).DataNodeIDs =
           roundRobinIDs (sortDataNodes c2Server.dataNodes)
             (7 % (sortDataNodes c2Server.dataNodes).length) j
             (effectiveReplicaN c2Policy.ReplicaN (sortDataNodes c2Server.dataNodes).length) ∧
         (g.Shards.getD j newShard).DataNodeIDs.length =
           effectiveReplicaN c2Policy.ReplicaN (sortDataNodes c2Server.dataNodes).length)) :=
  ⟨⟨rfl, rfl, rfl, rfl, rfl, by decide⟩,
   claim_C2_placement c2Server 7 ⟨"d", "p", 3⟩ c2Database c2Policy
     (sortDataNodes c2Server.dataNodes)
     (effectiveReplicaN c2Policy.ReplicaN (sortDataNodes c2Server.dataNodes).length)
     rfl rfl rfl rfl rfl (by decide)⟩

/-! Claim C4: idempotence of `createShardGroupIfNotExists`. -/

theorem truncate_bounds (t d : Int) (hd : 0 < d) :
    truncateTime t d ≤ t ∧ t < truncateTime t d + d := by
  unfold truncateTime
  rw [if_neg (by omega)]
  constructor
  · have h1 : 0 ≤ t.emod d := Int.emod_nonneg t (by omega)
    omega
  · have h2 : t.emod d < d := Int.emod_lt_of_pos t hd
    omega

/-- The observable effect of the creation branch of
`applyCreateShardGroupIfNotExists` on the policy: a new group covering
the truncated window is appended. -/
theorem applyCreateShardGroup_create_spec (s : ServerState) (mIdx : Nat)
    (c : CreateShardGroupIfNotExistsCommand) (db : Database) (rp : RetentionPolicy)
    (hdb : s.databases c.Database = some db)
    (hrp : db.policies c.Policy = some rp)
    (hng : rp.shardGroupByTimestamp c.Timestamp = none) :
    (applyCreateShardGroupIfNotExists none s mIdx c).1 = none ∧
    ∃ db1 rp1 g,
      (applyCreateShardGroupIfNotExists none s mIdx c).2.databases c.Database = some db1 ∧
      db1.policies c.Policy = some rp1 ∧
      rp1.shardGroups = rp.shardGroups ++ [g] ∧
      g.StartTime = truncateTime c.Timestamp rp.Duration ∧
      g.EndTime = truncateTime c.Timestamp rp.Duration + rp.Duration := by
  refine ⟨?_, ?_⟩
  · simp [applyCreateShardGroupIfNotExists, hdb, hrp, hng]
  · simp only [applyCreateShardGroupIfNotExists, hdb, hrp, hng]
    exact ⟨_, _, _, mapUpdate_self _ _ _, mapUpdate_self _ _ _, rfl, rfl, rfl⟩

/-- C4 counterexample: on the empty server (no database at all), applying
`createShardGroupIfNotExists` twice leaves no shard group anywhere and
the second apply returns `ErrDatabaseNotFound`, not nil — the claim's
"for every state" is false since it requires exactly one containing
group and a nil second result. -/
theorem claim_C4_counterexample :
    (applyCreateShardGroupIfNotExists none
        (applyCreateShardGroupIfNotExists none emptyServer 1 ⟨"d", "p", 0⟩).2
        2 ⟨"d", "p", 0⟩).1 = some GoError.DatabaseNotFound ∧
    ((applyCreateShardGroupIfNotExists none
        (applyCreateShardGroupIfNotExists none emptyServer 1 ⟨"d", "p", 0⟩).2
        2 ⟨"d", "p", 0⟩).2.databases "d").isSome = false := by
  constructor
  · rfl
  · rfl

/-- C4 amended: on a state where the database and the policy exist, the
policy's duration is positive, at least one data node exists, no existing
group of the policy contains the timestamp and both metastore
transactions succeed, applying `createShardGroupIfNotExists` twice leaves
exactly one group of the policy whose `[StartTime, EndTime)` window
contains the timestamp, and the second apply returns nil without
modifying the state. -/
theorem claim_C4_amended (s : ServerState) (mIdx1 mIdx2 : Nat)
    (c : CreateShardGroupIfNotExistsCommand) (db : Database) (rp : RetentionPolicy)
    (hdb : s.databases c.Database = some db)
    (hrp : db.policies c.Policy = some rp)
    (hng : rp.shardGroupByTimestamp c.Timestamp = none)
    (hd : 0 < rp.Duration)
    (hn : 1 ≤ (sortDataNodes s.dataNodes).length) :
    (∃ db1 rp1,
      (applyCreateShardGroupIfNotExists none s mIdx1 c).2.databases c.Database = some db1 ∧
      db1.policies c.Policy = some rp1 ∧
      (rp1.shardGroups.filter (fun g2 => g2.Contains c.Timestamp)).length = 1) ∧
    applyCreateShardGroupIfNotExists none
      (applyCreateShardGroupIfNotExists none s mIdx1 c).2 mIdx2 c =
      (none, (applyCreateShardGroupIfNotExists none s mIdx1 c).2) := by
  obtain ⟨-, db1, rp1, g, hdb1, hrp1, hgroups, hst, hen⟩ :=
    applyCreateShardGroup_create_spec s mIdx1 c db rp hdb hrp hng
  generalize hs1 : (applyCreateShardGroupIfNotExists none s mIdx1 c).2 = s1 at hdb1 ⊢
  have hcont : g.Contains c.Timestamp = true := by
    have hb := truncate_bounds c.Timestamp rp.Duration hd
    unfold ShardGroup.Contains
    rw [hst, hen]
    simp only [Bool.and_eq_true, decide_eq_true_eq]
    exact ⟨hb.1, hb.2⟩
  have hngu : rp.shardGroups.find? (fun g2 => g2.Contains c.Timestamp) = none := hng
  have hfind : rp1.shardGroupByTimestamp c.Timestamp = some g := by
    unfold RetentionPolicy.shardGroupByTimestamp
    rw [hgroups, List.find?_append, hngu]
    simp [List.find?, hcont]
  refine ⟨⟨db1, rp1, hdb1, hrp1, ?_⟩, ?_⟩
  · rw [hgroups, List.filter_append]
    have h1 : rp.shardGroups.filter (fun g2 => g2.Contains c.Timestamp) = [] := by
      rw [List.filter_eq_nil_iff]
      intro a ha
      exact List.find?_eq_none.mp hngu a ha
    rw [h1]
    simp [hcont]
  · simp only [applyCreateShardGroupIfNotExists, hdb1, hrp1, hfind]

/-- Witness for the amended C4 on the concrete two-node server. -/
theorem claim_C4_amended_witness :
    (c2Server.databases "d" = some c2Database ∧
     c2Database.policies "p" = some c2Policy ∧
     c2Policy.shardGroupByTimestamp 3 = none ∧
     0 < c2Policy.Duration ∧
     1 ≤ (sortDataNodes c2Server.dataNodes).length) ∧
    ((∃ db1 rp1,
       (applyCreateShardGroupIfNotExists none c2Server 7 ⟨"d", "p", 3⟩).2.databases "d" =
         some db1 ∧
       db1.policies "p" = some rp1 ∧
       (rp1.shardGroups.filter (fun g2 => g2.Contains 3)).length = 1) ∧
     applyCreateShardGroupIfNotExists none
       (applyCreateShardGroupIfNotExists none c2Server 7 ⟨"d", "p", 3⟩).2 8 ⟨"d", "p", 3⟩ =
       (none, (applyCreateShardGroupIfNotExists none c2Server 7 ⟨"d", "p", 3⟩).2)) :=
  ⟨⟨rfl, rfl, rfl, by decide, by decide⟩,
   claim_C4_amended c2Server 7 8 ⟨"d", "p", 3⟩ c2Database c2Policy rfl rfl rfl
     (by decide) (by decide)⟩

/-! Claim C5: the empty-values short circuit of `WriteSeries`. -/

/-- C5: a `WriteSeries` call with a single point whose values map is
empty, on a state where the series, the default retention policy, the
measurement and a shard group containing the timestamp all resolve
locally, returns index 0 with a nil error and leaves the whole system
state — in particular the broker log, so no message is published on the
shard's topic (or anywhere) — unchanged. -/
theorem claim_C5_empty_values (st : SysState) (database : String) (p : Point)
    (db : Database) (mm : Measurement) (sr : Series) (rp rpG : RetentionPolicy)
    (g : ShardGroup)
    (hdb : st.server.databases database = some db)
    (hms : db.MeasurementAndSeries p.Name p.Tags = some (mm, sr))
    (hdef : db.policies db.defaultRetentionPolicy = some rp)
    (hmeas : db.measurements p.Name = some mm)
    (hrpG : db.policies rp.Name = some rpG)
    (hfind : rpG.shardGroupByTimestamp p.Timestamp = some g)
    (hsh : g.Shards ≠ [])
    (hv : p.Values = []) :
    WriteSeries st database "" [p] = ((0, none), st) := by
  have h1 : createSeriesIfNotExists st database p.Name p.Tags = (.ok sr.ID, st) := by
    simp [createSeriesIfNotExists, hdb, hms]
  have h2 : DefaultRetentionPolicy st.server database = .ok (some rp) := by
    simp [DefaultRetentionPolicy, hdb, hdef]
  have h3 : measurement st.server database p.Name = .ok (some mm) := by
    simp [measurement, hdb, hmeas]
  have h4 : createShardGroupIfNotExistsCmd st database rp.Name p.Timestamp =
      (.ok (some g), st) := by
    simp [createShardGroupIfNotExistsCmd, shardGroupByTimestamp, hdb,
      Database.shardGroupByTimestamp, hrpG, hfind]
  obtain ⟨sh, h5⟩ : ∃ sh, g.ShardBySeriesID sr.ID = some sh := by
    unfold ShardGroup.ShardBySeriesID
    have hlen : 0 < g.Shards.length := List.length_pos.mpr hsh
    exact ⟨_, List.get?_eq_get (Nat.mod_lt _ hlen)⟩
  simp [WriteSeries, h1, h2, h3, h4, h5, hv]

/-- The measurement of the concrete write state: one series, no fields. -/
def c5Measurement : Measurement :=
  { Name := "cpu", fields := [], series := [{ ID := 1, Tags := [("h", "a")] }] }

/-- The existing shard group of the concrete write state. -/
def c5Group : ShardGroup :=
  { ID := 1, StartTime := 0, EndTime := 10, Shards := [{ ID := 1, DataNodeIDs := [1] }] }

/-- The default policy of the concrete write state, already holding
`c5Group`. -/
def c5Policy : RetentionPolicy :=
  { Name := "q", Duration := 10, ReplicaN := 1, shardGroups := [c5Group] }

/-- The concrete database for the C5 witness. -/
def c5Database : Database :=
  { name := "d",
    policies := mapUpdate newDatabase.policies "q" c5Policy,
    defaultRetentionPolicy := "q",
    measurements := mapUpdate newDatabase.measurements "cpu" c5Measurement }

/-- The concrete system state for the C5 witness: empty broker log. -/
def c5Sys : SysState :=
  { server := { emptyServer with databases := mapUpdate emptyServer.databases "d" c5Database },
    log := [], metaOutcomes := fun _ => none }

/-- The concrete empty-values point of the C5 witness. -/
def c5Point : Point :=
  { Name := "cpu", Tags := [("h", "a")], Timestamp := 3, Values := [] }

/-- Witness for C5: the concrete empty-values write returns `(0, nil)`
and leaves the system state untouched. -/
theorem claim_C5_empty_values_witness :
    (c5Sys.server.databases "d" = some c5Database ∧
     c5Database.MeasurementAndSeries c5Point.Name c5Point.Tags =
       some (c5Measurement, { ID := 1, Tags := [("h", "a")] }) ∧
     c5Database.policies c5Database.defaultRetentionPolicy = some c5Policy ∧
     c5Database.measurements c5Point.Name = some c5Measurement ∧
     c5Database.policies c5Policy.Name = some c5Policy ∧
     c5Policy.shardGroupByTimestamp c5Point.Timestamp = some c5Group ∧
     c5Group.Shards ≠ [] ∧
     c5Point.Values = []) ∧
    WriteSeries c5Sys "d" "" [c5Point] = ((0, none), c5Sys) :=
  ⟨⟨rfl, rfl, rfl, rfl, rfl, rfl, by decide, rfl⟩,
   claim_C5_empty_values c5Sys "d" c5Point c5Database c5Measurement
     { ID := 1, Tags := [("h", "a")] } c5Policy c5Policy c5Group
     rfl rfl rfl rfl rfl rfl (by decide) rfl⟩

end Influx

